import Mathlib

/-!
Verification of the dynamic proxy/dispatch layer of the boa bridge
(`packages/boa/lib/index.js`).

The source bridges the host (JavaScript) object model to a foreign
(Python) runtime.  Foreign handles are opaque native objects exposing a
fixed primitive operation set (type lookup, to-primitive conversion,
capability probes, attribute/item get and set, invocation).  We embed
the host-side control flow of the library exactly; the foreign
primitives themselves are native bindings outside the repository, so
they appear here as abstract data (record fields / function
parameters).
-/

namespace Boa

/-- Result of `getTypeInfo(T)` (index.js lines 18-24): the `__module__`
and `__name__` strings of the handle's runtime type object. -/
structure TypeInfo where
  module : String
  name : String
deriving DecidableEq, Repr

/-- Host primitive values that `T.toPrimitive()` can produce for the
primitive-producing Python types (int/int64/float/float64/bool/str). -/
inductive Prim where
  | num (n : Int)
  | bigint (n : Int)
  | bool (b : Bool)
  | str (s : String)
deriving DecidableEq, Repr

/-- The data of a foreign handle that `wrap` consults: its resolved
type identity, its to-primitive conversion, and the `isCallable()`
capability probe. -/
structure PyHandle where
  type : TypeInfo
  toPrimitive : Prim
  isCallable : Bool
deriving DecidableEq, Repr

/-- A JavaScript value as stored in the delegator registry: the
registry object maps top-level keys to either factory functions
(identified here by a tag), nested module tables, or other values. -/
inductive JsV where
  | undef
  | func (id : Nat)
  | obj (tbl : List (String × JsV))
  | other
deriving Repr

/-- JS property read `o[k]` on a plain object with own properties
`tbl`: the value when present, `undefined` otherwise. -/
def jsGet (tbl : List (String × JsV)) (k : String) : JsV :=
  match tbl.lookup k with
  | some v => v
  | none => JsV.undef

/-- `Object.prototype.hasOwnProperty.call(o, k)`. -/
def hasOwn (tbl : List (String × JsV)) (k : String) : Bool :=
  (tbl.lookup k).isSome

/-- The argument of `getDelegator`: either a literal string key
("callee"/"default") or a type identity. -/
inductive DelegKeyArg where
  | str (s : String)
  | typeId (t : TypeInfo)
deriving Repr

/-- `getDelegator(type)` (index.js lines 32-41): a string key is looked
up directly; a type identity is looked up as `delegators[module][name]`
guarded by `hasOwnProperty(delegators, module)`.  Reading a property of
a non-object own value (a function or primitive) yields `undefined` in
JS; the loader contract makes second levels plain objects. -/
def getDelegator (dels : List (String × JsV)) : DelegKeyArg → JsV
  | DelegKeyArg.str s => jsGet dels s
  | DelegKeyArg.typeId t =>
    if hasOwn dels t.module then
      match jsGet dels t.module with
      | JsV.obj m => jsGet m t.name
      | _ => JsV.undef
    else JsV.undef

/-- The input of `wrap`: JS `null`, JS `undefined`, or a foreign
handle. -/
inductive WrapInput where
  | jsNull
  | jsUndefined
  | obj (T : PyHandle)
deriving Repr

/-- The outcome of `wrap`: the input echoed back, host `null`, a host
primitive, or a proxy built around the handle with the selected
delegator factory. -/
inductive WrapOutput where
  | jsNull
  | jsUndefined
  | prim (p : Prim)
  | proxy (T : PyHandle) (delegator : JsV)
deriving Repr

/-- The type names whose handles are unwrapped to host primitives
(index.js lines 64-73). -/
def primitiveNames : List String :=
  ["int", "int64", "float", "float64", "bool", "str"]

/-- `wrap(T)` (index.js lines 48-85).  `T === null || T == undefined`
returns `T` itself; the `builtins.NoneType` identity maps to host
`null`; a primitive-producing type name returns `T.toPrimitive()`;
otherwise a delegator is selected — `"callee"` when
`T.isCallable()`, else the type-identity lookup, falling back to
`"default"` whenever the chosen value is not a function — and a proxy
is produced from it. -/
def wrap (dels : List (String × JsV)) : WrapInput → WrapOutput
  | WrapInput.jsNull => WrapOutput.jsNull
  | WrapInput.jsUndefined => WrapOutput.jsUndefined
  | WrapInput.obj T =>
    if T.type.module = "builtins" ∧ T.type.name = "NoneType" then
      WrapOutput.jsNull
    else if primitiveNames.contains T.type.name then
      WrapOutput.prim T.toPrimitive
    else
      let fn := getDelegator dels
        (if T.isCallable then DelegKeyArg.str "callee"
         else DelegKeyArg.typeId T.type)
      let fn' := match fn with
        | JsV.func i => JsV.func i
        | _ => getDelegator dels (DelegKeyArg.str "default")
      WrapOutput.proxy T fn'

/-- C1: `wrap` returns null/undefined inputs unchanged; a handle whose
resolved type identity is `builtins.NoneType` is mapped to host null,
never a proxy; and a handle whose type name is one of int, int64,
float, float64, bool, str has its to-primitive conversion called and
that primitive returned directly, never a proxy. -/
theorem wrap_none_and_primitives (dels : List (String × JsV)) :
    wrap dels WrapInput.jsNull = WrapOutput.jsNull ∧
    wrap dels WrapInput.jsUndefined = WrapOutput.jsUndefined ∧
    (∀ T : PyHandle, T.type = ⟨"builtins", "NoneType"⟩ →
      wrap dels (WrapInput.obj T) = WrapOutput.jsNull) ∧
    (∀ T : PyHandle, T.type.name ∈ primitiveNames →
      wrap dels (WrapInput.obj T) = WrapOutput.prim T.toPrimitive) := by
  refine ⟨rfl, rfl, ?_, ?_⟩
  · intro T h
    simp [wrap, h]
  · intro T h
    have hnn : T.type.name ≠ "NoneType" := by
      intro hc
      rw [hc] at h
      simp [primitiveNames] at h
    simp [wrap, hnn, h]

/-- Witness for C1: the None-equivalent handle maps to host null, and a
foreign `int` handle for 42 unwraps to the primitive 42. -/
theorem wrap_none_and_primitives_witness :
    wrap [] (WrapInput.obj ⟨⟨"builtins", "NoneType"⟩, Prim.num 0, false⟩) =
      WrapOutput.jsNull ∧
    wrap [] (WrapInput.obj ⟨⟨"builtins", "int"⟩, Prim.num 42, false⟩) =
      WrapOutput.prim (Prim.num 42) := by
  constructor
  · exact (wrap_none_and_primitives []).2.2.1 _ rfl
  · exact (wrap_none_and_primitives []).2.2.2 _ (by simp [primitiveNames])

/-- Tests whether a JS value is a function (`typeof fn === 'function'`). -/
def isFunc : JsV → Bool
  | JsV.func _ => true
  | _ => false

/-- Claim-side description of the two-level type-identity lookup: the
delegator for a Type Identity is `mapping[module][name]`, yielding
undefined when either level is absent. -/
def claimTypeLookup (dels : List (String × JsV)) (t : TypeInfo) : JsV :=
  match dels.lookup t.module with
  | some (JsV.obj m) => jsGet m t.name
  | _ => JsV.undef

/-- Claim-side description of delegator selection: prefer `"callee"`
for an invocable handle, else the type-identity lookup; whenever the
chosen lookup does not yield a factory function, use `"default"`. -/
def claimSelect (dels : List (String × JsV)) (T : PyHandle) : JsV :=
  let chosen :=
    if T.isCallable then jsGet dels "callee" else claimTypeLookup dels T.type
  if isFunc chosen then chosen else jsGet dels "default"

/-- C7: for every handle that `wrap` turns into a proxy, the delegator
is selected exactly as the claim describes: `"callee"` is preferred
for invocable handles, else the Type Identity is looked up as
`mapping[module][name]` (undefined when either level is absent), and
whenever that lookup is not a factory function the `"default"`
delegator is used. -/
theorem wrap_delegator_selection (dels : List (String × JsV)) (T : PyHandle)
    (hnone : ¬(T.type.module = "builtins" ∧ T.type.name = "NoneType"))
    (hprim : T.type.name ∉ primitiveNames) :
    wrap dels (WrapInput.obj T) = WrapOutput.proxy T (claimSelect dels T) := by
  have hc : primitiveNames.contains T.type.name = false := by
    simp [hprim]
  have hlk : getDelegator dels
      (if T.isCallable then DelegKeyArg.str "callee"
       else DelegKeyArg.typeId T.type) =
      (if T.isCallable then jsGet dels "callee"
       else claimTypeLookup dels T.type) := by
    cases hcall : T.isCallable with
    | true => simp [getDelegator]
    | false =>
      have h1 : (if false = true then DelegKeyArg.str "callee"
                 else DelegKeyArg.typeId T.type) = DelegKeyArg.typeId T.type := by
        simp
      have h2 : (if false = true then jsGet dels "callee"
                 else claimTypeLookup dels T.type) = claimTypeLookup dels T.type := by
        simp
      rw [h1, h2]
      unfold getDelegator claimTypeLookup hasOwn jsGet
      cases hmod : dels.lookup T.type.module with
      | none => simp [hmod]
      | some v => cases v <;> simp [hmod]
  simp only [wrap]
  rw [if_neg hnone, if_neg (by simpa using hprim)]
  simp only [hlk]
  cases hch : (if T.isCallable then jsGet dels "callee"
               else claimTypeLookup dels T.type) <;>
    simp [claimSelect, hch, isFunc, getDelegator]

/-- Witness for C7: a non-callable handle of an unregistered type falls
back to the `"default"` delegator. -/
theorem wrap_delegator_selection_witness :
    ¬(("numpy" : String) = "builtins" ∧ ("ndarray" : String) = "NoneType") ∧
    ("ndarray" : String) ∉ primitiveNames ∧
    wrap [("default", JsV.func 7)]
      (WrapInput.obj ⟨⟨"numpy", "ndarray"⟩, Prim.num 0, false⟩) =
      WrapOutput.proxy ⟨⟨"numpy", "ndarray"⟩, Prim.num 0, false⟩ (JsV.func 7) := by
  refine ⟨by simp, by simp [primitiveNames], ?_⟩
  exact wrap_delegator_selection [("default", JsV.func 7)]
    ⟨⟨"numpy", "ndarray"⟩, Prim.num 0, false⟩ (by simp) (by simp [primitiveNames])

/-- A JS property key: a string or a symbol. -/
inductive PropName where
  | str (s : String)
  | sym (id : Nat)
deriving DecidableEq, Repr

/-- A host-side member already present on the proxy target (an own
property installed by `_internalWrap` or the delegator, or a property
of the target's direct prototype): a function or a plain value,
identified by a tag. -/
inductive HostMember where
  | func (id : Nat)
  | val (id : Nat)
deriving DecidableEq, Repr

/-- The outcome of a foreign `__getitem__` call: it raises, or returns
a (possibly nullish) foreign value. -/
inductive GetItemRes (π : Type) where
  | raise
  | ok (v : π)
deriving DecidableEq, Repr

/-- The foreign primitives consulted by the GET trap, over an abstract
type `π` of foreign values.  `isNullish v` models the JS test
`v != null` failing (the foreign call returned null/undefined). -/
structure GetOps (π : Type) where
  hasattr : String → Bool
  getattr : String → π
  getitemIdx : Nat → GetItemRes π
  getitemRaw : PropName → GetItemRes π
  isNullish : π → Bool

/-- The host-visible outcome of the GET trap.  `wrapped v` means the
foreign value `v` is passed through `wrap` and the result returned;
`raised` means a foreign exception propagates to the host. -/
inductive GetResult (π : Type) where
  | boundFunc (id : Nat)
  | hostVal (id : Nat)
  | wrapped (v : π)
  | raised
  | undef
deriving DecidableEq, Repr

/-- The regular-expression test `/^[0-9]+$/.test(name)`: a non-empty
all-digit string. -/
def isNumericStr (s : String) : Bool :=
  !s.data.isEmpty && s.data.all Char.isDigit

/-- `parseInt(s, 10)` on a string matching `^[0-9]+$`: plain decimal
parsing. -/
def parseDec (s : String) : Nat :=
  s.data.foldl (fun n c => n * 10 + (c.toNat - Char.toNat '0')) 0

/-- The target read `target[name]` performed after the guard
`hasOwnProperty(target, name) || hasOwnProperty(constructProto, name)`:
the own property when present, else the direct prototype's. -/
def targetLookup (own proto : List (PropName × HostMember)) (name : PropName) :
    Option HostMember :=
  match own.lookup name with
  | some v => some v
  | none => proto.lookup name

/-- The GET trap (index.js lines 315-359).  Own/one-level-prototype
properties win, with functions rebound to the proxy; a numeric string
is routed to `__getitem__(parseInt(name, 10))` (no exception handling
on this path); an existing attribute is routed to `__getattr__`;
otherwise `__getitem__(name)` is tried, a raise is swallowed into
`undefined`, and a nullish result also resolves to `undefined`. -/
def proxyGet {π : Type} (ops : GetOps π) (own proto : List (PropName × HostMember))
    (name : PropName) : GetResult π :=
  match targetLookup own proto name with
  | some (HostMember.func id) => GetResult.boundFunc id
  | some (HostMember.val id) => GetResult.hostVal id
  | none =>
    let tryItem : GetResult π :=
      match ops.getitemRaw name with
      | GetItemRes.raise => GetResult.undef
      | GetItemRes.ok v =>
        if ops.isNullish v then GetResult.undef else GetResult.wrapped v
    match name with
    | PropName.str s =>
      if isNumericStr s then
        match ops.getitemIdx (parseDec s) with
        | GetItemRes.raise => GetResult.raised
        | GetItemRes.ok v => GetResult.wrapped v
      else if ops.hasattr s then GetResult.wrapped (ops.getattr s)
      else tryItem
    | PropName.sym _ => tryItem

/-- C2: the GET trap resolves in the claimed order — (1) own or
one-level-inherited properties are returned, functions rebound to the
proxy; (2) a non-negative integer literal string resolves via foreign
item-get at that index; (3) a name the handle reports as an attribute
resolves via foreign attribute-get, taking priority over item lookup;
(4) otherwise foreign item-get is attempted and a raising lookup is
swallowed into undefined; every foreign value so resolved is passed
through `wrap`. -/
theorem proxyGet_resolution_order {π : Type} (ops : GetOps π)
    (own proto : List (PropName × HostMember)) :
    (∀ name id, targetLookup own proto name = some (HostMember.func id) →
      proxyGet ops own proto name = GetResult.boundFunc id) ∧
    (∀ name id, targetLookup own proto name = some (HostMember.val id) →
      proxyGet ops own proto name = GetResult.hostVal id) ∧
    (∀ s v, targetLookup own proto (PropName.str s) = none →
      isNumericStr s = true →
      ops.getitemIdx (parseDec s) = GetItemRes.ok v →
      proxyGet ops own proto (PropName.str s) = GetResult.wrapped v) ∧
    (∀ s, targetLookup own proto (PropName.str s) = none →
      isNumericStr s = false →
      ops.hasattr s = true →
      proxyGet ops own proto (PropName.str s) =
        GetResult.wrapped (ops.getattr s)) ∧
    (∀ s, targetLookup own proto (PropName.str s) = none →
      isNumericStr s = false →
      ops.hasattr s = false →
      ops.getitemRaw (PropName.str s) = GetItemRes.raise →
      proxyGet ops own proto (PropName.str s) = GetResult.undef) ∧
    (∀ s v, targetLookup own proto (PropName.str s) = none →
      isNumericStr s = false →
      ops.hasattr s = false →
      ops.getitemRaw (PropName.str s) = GetItemRes.ok v →
      ops.isNullish v = false →
      proxyGet ops own proto (PropName.str s) = GetResult.wrapped v) := by
  refine ⟨?_, ?_, ?_, ?_, ?_, ?_⟩
  · intro name id h
    simp [proxyGet, h]
  · intro name id h
    simp [proxyGet, h]
  · intro s v h hnum hitem
    simp [proxyGet, h, hnum, hitem]
  · intro s h hnum hattr
    simp [proxyGet, h, hnum, hattr]
  · intro s h hnum hattr hraw
    simp [proxyGet, h, hnum, hattr, hraw]
  · intro s v h hnum hattr hraw hnull
    simp [proxyGet, h, hnum, hattr, hraw, hnull]

/-- Witness for C2: a concrete operation table exercising the
attribute-priority clause — the handle has attribute "x", and the GET
trap returns the wrapped attribute value. -/
theorem proxyGet_resolution_order_witness :
    targetLookup [] [] (PropName.str "x") = none ∧
    isNumericStr "x" = false ∧
    proxyGet
      (⟨fun n => n = "x", fun _ => (5 : Nat),
        fun _ => GetItemRes.ok 9, fun _ => GetItemRes.ok 9,
        fun _ => false⟩ : GetOps Nat) [] [] (PropName.str "x") =
      GetResult.wrapped 5 := by
  refine ⟨rfl, by decide, ?_⟩
  exact (proxyGet_resolution_order
      (⟨fun n => n = "x", fun _ => (5 : Nat),
        fun _ => GetItemRes.ok 9, fun _ => GetItemRes.ok 9,
        fun _ => false⟩ : GetOps Nat) [] []).2.2.2.1 "x" rfl (by decide)
    (by decide)

/-- The key handed to the foreign `__setitem__`: the parsed integer
index for a numeric-string name, or the raw property name otherwise. -/
inductive SetKey where
  | idx (n : Nat)
  | raw (p : PropName)
deriving DecidableEq, Repr

/-- One foreign mutation performed by the SET trap, with the sentinel
code it returned (`-1` is the failure sentinel). -/
inductive MutCall where
  | item (k : SetKey) (sentinel : Int)
  | attr (p : PropName) (sentinel : Int)
deriving DecidableEq, Repr

/-- The foreign primitives consulted by the SET trap: the attribute
probe and the sentinel-returning mutators. -/
structure SetOps where
  hasattr : String → Bool
  setitem : SetKey → Int
  setattr : PropName → Int

/-- The SET trap (index.js lines 360-374): a numeric-string name
performs `__setitem__(parseInt(name, 10), value)`; else an existing
attribute performs `__setattr__`; else `__setitem__(name, value)` is
attempted and, on the `-1` sentinel, `__setattr__` is the fallback.
The result records the foreign mutations performed, in order, and the
returned success boolean `r !== -1`. -/
def proxySet (ops : SetOps) (name : PropName) : List MutCall × Bool :=
  match name with
  | PropName.str s =>
    if isNumericStr s then
      let r := ops.setitem (SetKey.idx (parseDec s))
      ([MutCall.item (SetKey.idx (parseDec s)) r], r != -1)
    else if ops.hasattr s then
      let r := ops.setattr (PropName.str s)
      ([MutCall.attr (PropName.str s) r], r != -1)
    else
      let r := ops.setitem (SetKey.raw (PropName.str s))
      if r = -1 then
        let r' := ops.setattr (PropName.str s)
        ([MutCall.item (SetKey.raw (PropName.str s)) r,
          MutCall.attr (PropName.str s) r'], r' != -1)
      else
        ([MutCall.item (SetKey.raw (PropName.str s)) r], r != -1)
  | PropName.sym i =>
    let r := ops.setitem (SetKey.raw (PropName.sym i))
    if r = -1 then
      let r' := ops.setattr (PropName.sym i)
      ([MutCall.item (SetKey.raw (PropName.sym i)) r,
        MutCall.attr (PropName.sym i) r'], r' != -1)
    else
      ([MutCall.item (SetKey.raw (PropName.sym i)) r], r != -1)

/-- Tests whether a foreign mutation record is an attribute-set. -/
def MutCall.isAttrSet : MutCall → Bool
  | MutCall.attr _ _ => true
  | MutCall.item _ _ => false

/-- C4: the SET trap resolves in the claimed order — a numeric-string
name performs a foreign item-set at that integer index and never an
attribute-set; else an existing attribute performs a foreign
attribute-set; else a foreign item-set is attempted with foreign
attribute-set as fallback on the failure sentinel; and the returned
success boolean is derived from the sentinel of the mutation performed
(non-failure implies true). -/
theorem proxySet_resolution_order (ops : SetOps) :
    (∀ s, isNumericStr s = true →
      proxySet ops (PropName.str s) =
        ([MutCall.item (SetKey.idx (parseDec s))
            (ops.setitem (SetKey.idx (parseDec s)))],
         ops.setitem (SetKey.idx (parseDec s)) != -1) ∧
      ∀ c ∈ (proxySet ops (PropName.str s)).1, c.isAttrSet = false) ∧
    (∀ s, isNumericStr s = false → ops.hasattr s = true →
      proxySet ops (PropName.str s) =
        ([MutCall.attr (PropName.str s) (ops.setattr (PropName.str s))],
         ops.setattr (PropName.str s) != -1)) ∧
    (∀ s, isNumericStr s = false → ops.hasattr s = false →
      ops.setitem (SetKey.raw (PropName.str s)) ≠ -1 →
      proxySet ops (PropName.str s) =
        ([MutCall.item (SetKey.raw (PropName.str s))
            (ops.setitem (SetKey.raw (PropName.str s)))], true)) ∧
    (∀ s, isNumericStr s = false → ops.hasattr s = false →
      ops.setitem (SetKey.raw (PropName.str s)) = -1 →
      proxySet ops (PropName.str s) =
        ([MutCall.item (SetKey.raw (PropName.str s)) (-1),
          MutCall.attr (PropName.str s) (ops.setattr (PropName.str s))],
         ops.setattr (PropName.str s) != -1)) := by
  refine ⟨?_, ?_, ?_, ?_⟩
  · intro s hnum
    constructor
    · simp [proxySet, hnum]
    · intro c hc
      simp [proxySet, hnum] at hc
      simp [hc, MutCall.isAttrSet]
  · intro s hnum hattr
    simp [proxySet, hnum, hattr]
  · intro s hnum hattr hok
    simp [proxySet, hnum, hattr, hok]
  · intro s hnum hattr hfail
    simp [proxySet, hnum, hattr, hfail]

/-- Witness for C4: setting name "0" on a handle that also reports an
attribute "0" performs exactly one item-set at index 0 (never an
attribute-set) and succeeds. -/
theorem proxySet_resolution_order_witness :
    isNumericStr "0" = true ∧
    proxySet ⟨fun _ => true, fun _ => 0, fun _ => 0⟩ (PropName.str "0") =
      ([MutCall.item (SetKey.idx 0) 0], true) := by
  have h := (proxySet_resolution_order
    ⟨fun _ => true, fun _ => 0, fun _ => 0⟩).1 "0" (by decide)
  refine ⟨by decide, ?_⟩
  have h1 := h.1
  simpa [parseDec] using h1

/-- Which branch the `Symbol.iterator` hook takes (index.js lines
202-241): forward the foreign iterator, drive the foreign sequence by a
cursor, or throw a TypeError. -/
inductive IterBranch where
  | fromIterator
  | fromSequence
  | typeError (msg : String)
deriving DecidableEq, Repr

/-- The branch selection of the `Symbol.iterator` hook: `T.isIterator()`
first, then `T.isSequence()`, else a TypeError. -/
def symbolIterator (isIterator isSequence : Bool) : IterBranch :=
  if isIterator then IterBranch.fromIterator
  else if isSequence then IterBranch.fromSequence
  else IterBranch.typeError "object is not iteratable or sequence."

/-- The result object of a foreign `T.next()` call. -/
structure ForeignNext (π : Type) where
  done : Bool
  value : π
deriving DecidableEq, Repr

/-- The step object the host receives from the adapter's iterator
branch; `wrappedValue` is the foreign value passed through `wrap`. -/
structure HostIterStep (π : Type) where
  done : Bool
  wrappedValue : π
deriving DecidableEq, Repr

/-- One `next()` call of the iterator branch: forward `curr.done` and
return `wrap(curr.value)` (index.js lines 207-217). -/
def iterBranchNext {π : Type} (curr : ForeignNext π) : HostIterStep π :=
  ⟨curr.done, curr.value⟩

/-- The host-visible outcome of one `next()` call of the sequence
branch: `{done:true, value:undefined}` or `{done:false, value:wrap v}`
for the fetched foreign element `v`. -/
inductive SeqStep (π : Type) where
  | done
  | yield (v : π)
deriving DecidableEq, Repr

/-- One `next()` call of the sequence branch (index.js lines 218-238).
The cursor (the symbol-keyed `IterIdxForSeqSymbol` slot, absent before
the first call) is advanced first; then the live sequence length
`lenNow` — recomputed on this very step via the foreign `len`
builtin — is compared against the cursor; exhaustion yields done, else
the element at the cursor is fetched via `__getitem__` and wrapped. -/
def seqBranchNext {π : Type} (lenNow : Nat) (getitem : Nat → π)
    (st : Option Nat) : Option Nat × SeqStep π :=
  let index := match st with
    | some i => i + 1
    | none => 0
  if lenNow ≤ index then (some index, SeqStep.done)
  else (some index, SeqStep.yield (getitem index))

/-- Runs the sequence branch once per element of `lens`, where
`lens.get k` is the live sequence length observed at the k-th step
(the length is re-queried on every step, so it may vary). -/
def runSeqSteps {π : Type} (getitem : Nat → π) :
    List Nat → Option Nat → List (SeqStep π)
  | [], _ => []
  | lenNow :: rest, st =>
    let p := seqBranchNext lenNow getitem st
    p.2 :: runSeqSteps getitem rest p.1

/-- C5: the iterator hook prefers the foreign iterator capability
(forwarding `done` and wrapping every produced value), else drives a
sequence with a cursor starting at 0 and incremented each step,
re-reading the live length each step, yielding the wrapped element at
the cursor until the cursor reaches the length — a length-3 sequence
yields exactly the wrapped elements at cursors 0, 1, 2, then
completion — and fails with the TypeError otherwise. -/
theorem iterator_adapter_spec {π : Type} (getitem : Nat → π) :
    (∀ b, symbolIterator true b = IterBranch.fromIterator) ∧
    symbolIterator false true = IterBranch.fromSequence ∧
    symbolIterator false false =
      IterBranch.typeError "object is not iteratable or sequence." ∧
    (∀ curr : ForeignNext π, iterBranchNext curr = ⟨curr.done, curr.value⟩) ∧
    (∀ lenNow, seqBranchNext lenNow getitem none =
      (some 0, if lenNow ≤ 0 then SeqStep.done else SeqStep.yield (getitem 0))) ∧
    (∀ lenNow i, seqBranchNext lenNow getitem (some i) =
      (some (i + 1),
       if lenNow ≤ i + 1 then SeqStep.done
       else SeqStep.yield (getitem (i + 1)))) ∧
    runSeqSteps getitem [3, 3, 3, 3] none =
      [SeqStep.yield (getitem 0), SeqStep.yield (getitem 1),
       SeqStep.yield (getitem 2), SeqStep.done] := by
  refine ⟨fun b => rfl, rfl, rfl, fun curr => rfl, ?_, ?_, ?_⟩
  · intro lenNow
    by_cases h : lenNow ≤ 0 <;> simp [seqBranchNext, h]
  · intro lenNow i
    by_cases h : lenNow ≤ i + 1 <;> simp [seqBranchNext, h]
  · simp [runSeqSteps, seqBranchNext]

/-- The argument triple handed to the foreign `__exit__`: the
`(null, null, null)` triple, or the handle-marker-wrapped
`(err.ptype, err.pvalue, err.ptrace)` triple of a caught exception
`err` of type `ε`. -/
inductive ExitArg (ε : Type) where
  | nullTriple
  | excTriple (err : ε)
deriving DecidableEq, Repr

/-- A context object as `with` sees it: the `__enter__` and `__exit__`
members, each present (a function) or absent.  `__exit__` returns the
truthiness of its result. -/
structure WithCtx (α ε : Type) where
  enter : Option (Unit → α)
  exit : Option (ExitArg ε → Bool)

/-- The callback argument of `with`: not a function, or a function that
returns normally or throws. -/
inductive WithFn (α ε : Type) where
  | notCallable
  | callable (run : α → Except ε Unit)

/-- The observable outcome of a `with(ctx, fn)` call. -/
inductive WithOutcome (ε : Type) where
  | typeErrorCtx
  | typeErrorFn
  | resolved
  | rejected (err : ε)
deriving DecidableEq, Repr

/-- `with(ctx, fn)` (index.js lines 434-464), returning the ordered
list of foreign `__exit__` invocations together with the outcome.
Missing magic methods throw before any exit; a non-function `fn` calls
`__exit__(null, null, null)` and then throws; otherwise `fn` runs on
the entered value inside try/catch/finally — an exception calls
`__exit__` with the exception triple and rethrows exactly when that
call is falsy, and the finally clause calls `__exit__(null, null,
null)` only when no exception was hit. -/
def withScope {α ε : Type} (ctx : WithCtx α ε) (fn : WithFn α ε) :
    List (ExitArg ε) × WithOutcome ε :=
  match ctx.enter, ctx.exit with
  | some ent, some ex =>
    match fn with
    | WithFn.notCallable => ([ExitArg.nullTriple], WithOutcome.typeErrorFn)
    | WithFn.callable run =>
      match run (ent ()) with
      | Except.ok _ =>
        -- no exception hit: the finally clause performs the null-triple exit
        ([ExitArg.nullTriple], WithOutcome.resolved)
      | Except.error err =>
        if ex (ExitArg.excTriple err) then
          ([ExitArg.excTriple err], WithOutcome.resolved)
        else
          ([ExitArg.excTriple err], WithOutcome.rejected err)
  | _, _ => ([], WithOutcome.typeErrorCtx)

/-- C3: when `ctx` exposes enter and exit, `__exit__` runs exactly once
on every exit path — with the null triple before the type-error when
`fn` is not callable; exactly once with the exception's triple when
`fn` throws, the original error re-surfacing exactly when exit is
falsy and no error surfacing when exit is truthy; and once with the
null triple on normal completion. -/
theorem withScope_exit_exactly_once {α ε : Type}
    (ent : Unit → α) (ex : ExitArg ε → Bool) (fn : WithFn α ε) :
    (withScope ⟨some ent, some ex⟩ fn).1.length = 1 ∧
    (fn = WithFn.notCallable →
      withScope ⟨some ent, some ex⟩ fn =
        ([ExitArg.nullTriple], WithOutcome.typeErrorFn)) ∧
    (∀ run err, fn = WithFn.callable run → run (ent ()) = Except.error err →
      (withScope ⟨some ent, some ex⟩ fn).1 = [ExitArg.excTriple err] ∧
      (withScope ⟨some ent, some ex⟩ fn).2 =
        (if ex (ExitArg.excTriple err) then WithOutcome.resolved
         else WithOutcome.rejected err)) ∧
    (∀ run, fn = WithFn.callable run → run (ent ()) = Except.ok () →
      withScope ⟨some ent, some ex⟩ fn =
        ([ExitArg.nullTriple], WithOutcome.resolved)) := by
  refine ⟨?_, ?_, ?_, ?_⟩
  · cases fn with
    | notCallable => rfl
    | callable run =>
      cases hr : run (ent ()) with
      | ok u => simp [withScope, hr]
      | error err =>
        by_cases hex : ex (ExitArg.excTriple err) <;> simp [withScope, hr, hex]
  · intro h
    subst h
    rfl
  · intro run err h hr
    subst h
    by_cases hex : ex (ExitArg.excTriple err) <;> simp [withScope, hr, hex]
  · intro run h hr
    subst h
    simp [withScope, hr]

/-- Witness for C3: a throwing callback with an exit that declines to
handle the exception — exit is called exactly once with the exception
triple and the original error re-surfaces. -/
theorem withScope_exit_exactly_once_witness :
    (withScope (α := Unit) (ε := Nat)
        ⟨some (fun _ => ()), some (fun _ => false)⟩
        (WithFn.callable (fun _ => Except.error 7))).1.length = 1 ∧
    (withScope (α := Unit) (ε := Nat)
        ⟨some (fun _ => ()), some (fun _ => false)⟩
        (WithFn.callable (fun _ => Except.error 7))).1 =
      [ExitArg.excTriple 7] ∧
    (withScope (α := Unit) (ε := Nat)
        ⟨some (fun _ => ()), some (fun _ => false)⟩
        (WithFn.callable (fun _ => Except.error 7))).2 =
      WithOutcome.rejected 7 := by
  have h := withScope_exit_exactly_once (α := Unit) (ε := Nat)
    (fun _ => ()) (fun _ => false)
    (WithFn.callable (fun _ => Except.error 7))
  refine ⟨h.1, ?_, ?_⟩
  · exact (h.2.2.1 _ 7 rfl rfl).1
  · have h2 := (h.2.2.1 _ 7 rfl rfl).2
    simpa using h2

/-- One foreign-facing action of the CONSTRUCT trap, in order: the
class handle's invocation with the host argument list, the wrapping of
the produced instance, the explicit `__init__` invocation with its
argument list, and the `__setattr__` copies of the host-side subclass
prototype members (values drawn from a type `μ` of host members). -/
inductive ConstructOp (π μ : Type) where
  | invokeClass (args : List π)
  | wrapInstance
  | callInit (args : List π)
  | setAttr (name : String) (value : μ)
deriving DecidableEq, Repr

/-- The CONSTRUCT trap (index.js lines 378-393): `target.invoke` with
the full argument list, `wrap` of the instance, `obj.__init__()` with
no arguments, then for every own property of `newClass.prototype`
except `constructor` (own property names are unique, so we iterate the
association pairs) an `obj.__setattr__(name, newClass.prototype[name])`. -/
def constructTrap {π μ : Type} (args : List π) (proto : List (String × μ)) :
    List (ConstructOp π μ) :=
  ConstructOp.invokeClass args :: ConstructOp.wrapInstance ::
    ConstructOp.callInit [] ::
    (proto.filter (fun p => p.1 ≠ "constructor")).map
      (fun p => ConstructOp.setAttr p.1 p.2)

/-- C8: the CONSTRUCT trap invokes the handle on the constructor
arguments, wraps the instance, then invokes the foreign initializer
with no arguments (the constructor arguments are not forwarded to it),
and copies every own prototype member except `constructor` onto the
instance via foreign attribute-set, never copying `constructor`. -/
theorem construct_trap_spec {π μ : Type} (args : List π)
    (proto : List (String × μ)) :
    (constructTrap args proto).take 3 =
      [ConstructOp.invokeClass args, ConstructOp.wrapInstance,
       ConstructOp.callInit []] ∧
    (∀ as : List π, ConstructOp.callInit as ∈ constructTrap args proto →
      as = []) ∧
    (∀ n v, (n, v) ∈ proto → n ≠ "constructor" →
      ConstructOp.setAttr n v ∈ constructTrap args proto) ∧
    (∀ v : μ, ConstructOp.setAttr "constructor" v ∉ constructTrap args proto) := by
  refine ⟨rfl, ?_, ?_, ?_⟩
  · intro as has
    rcases List.mem_cons.mp has with h | has1
    · exact absurd h (by simp)
    · rcases List.mem_cons.mp has1 with h | has2
      · exact absurd h (by simp)
      · rcases List.mem_cons.mp has2 with h | has3
        · injection h with h1
        · obtain ⟨p, hp, hmk⟩ := List.mem_map.mp has3
          exact absurd hmk (by simp)
  · intro n v hmem hne
    simp [constructTrap]
    exact ⟨hmem, hne⟩
  · intro v
    simp [constructTrap]

/-- Witness for C8: a prototype with a method `greet` and its
`constructor` — the trace invokes with the arguments, wraps, calls the
no-argument initializer, and copies only `greet`. -/
theorem construct_trap_spec_witness :
    (constructTrap ([3] : List Nat)
        ([("constructor", 0), ("greet", 1)] : List (String × Nat))).take 3 =
      [ConstructOp.invokeClass [3], ConstructOp.wrapInstance,
       ConstructOp.callInit []] ∧
    ConstructOp.setAttr "greet" 1 ∈
      constructTrap ([3] : List Nat) [("constructor", 0), ("greet", 1)] ∧
    (ConstructOp.setAttr "constructor" (0 : Nat) ∉
      constructTrap ([3] : List Nat) [("constructor", 0), ("greet", 1)]) := by
  have h := construct_trap_spec ([3] : List Nat)
    ([("constructor", 0), ("greet", 1)] : List (String × Nat))
  exact ⟨h.1, h.2.2.1 "greet" 1 (by simp) (by simp), h.2.2.2 0⟩

/-- A JS runtime value for the kwargs boundary: primitives, `null`,
`undefined`, a reference to a heap object, or a function. -/
inductive JsVal where
  | num (n : Int)
  | str (s : String)
  | boolv (b : Bool)
  | undef
  | jsnull
  | objRef (r : Nat)
  | funcRef (id : Nat)
deriving DecidableEq, Repr

/-- The JS `typeof` operator (note `typeof null === 'object'`). -/
def jsTypeof : JsVal → String
  | JsVal.num _ => "number"
  | JsVal.str _ => "string"
  | JsVal.boolv _ => "boolean"
  | JsVal.undef => "undefined"
  | JsVal.jsnull => "object"
  | JsVal.objRef _ => "object"
  | JsVal.funcRef _ => "function"

/-- An object's enumerable own properties, in insertion order. -/
abbrev JsFields := List (String × JsVal)

/-- A heap of JS objects; `JsVal.objRef r` points at index `r`. -/
abbrev JsHeap := List (List (String × JsVal))

/-- The fields of the object at reference `r` ([] for a dangling
reference, which the operations below never create). -/
def heapFields (h : JsHeap) (r : Nat) : List (String × JsVal) :=
  h[r]?.getD []

/-- A single JS property assignment `o[k] = v`: an existing key keeps
its position and is updated, a new key is appended. -/
def setField : List (String × JsVal) → String → JsVal → List (String × JsVal)
  | [], k, v => [(k, v)]
  | (k', v') :: rest, k, v =>
    if k' = k then (k, v) :: rest else (k', v') :: setField rest k v

/-- `kwargs(input)` (index.js lines 420-427): a non-`"object"` input
throws `TypeError('input must be a string.')`; otherwise
`Object.assign({}, input, { [KWARGS]: true })` copies the input's
enumerable own properties into a fresh object (a `null` input
contributes none), sets the keyword-arguments tag `kw` on it, and the
fresh reference is returned.  The heap is extended; no existing object
is modified. -/
def kwargsOp (kw : String) (h : JsHeap) (input : JsVal) :
    Except String (JsHeap × JsVal) :=
  if jsTypeof input ≠ "object" then
    Except.error "input must be a string."
  else
    let srcFields := match input with
      | JsVal.objRef r => heapFields h r
      | _ => []
    let newFields := setField srcFields kw (JsVal.boolv true)
    Except.ok (h ++ [newFields], JsVal.objRef h.length)

/-- Looks a key up among an object's enumerable own properties. -/
def fieldsGet (fs : List (String × JsVal)) (k : String) : Option JsVal :=
  fs.lookup k

/-- A key is present after `setField` exactly when it is the written
key or was present before. -/
theorem fieldsGet_setField (fs : List (String × JsVal)) (k : String)
    (v : JsVal) : fieldsGet (setField fs k v) k = some v := by
  induction fs with
  | nil => simp [setField, fieldsGet]
  | cons p rest ih =>
    obtain ⟨k', v'⟩ := p
    by_cases hk : k' = k
    · simp [setField, hk, fieldsGet]
    · have hbk : (k == k') = false := by
        simp [Ne.symm hk]
      simp only [setField, if_neg hk, fieldsGet, List.lookup, hbk] at ih ⊢
      exact ih

/-- C9: `kwargs` fails with the type-error for every input whose
`typeof` is not `"object"` — in particular for the number 42 — and for
an object input it returns a plain host object carrying the
keyword-arguments tag. -/
theorem kwargs_type_check (kw : String) (h : JsHeap) :
    (∀ input : JsVal, jsTypeof input ≠ "object" →
      kwargsOp kw h input = Except.error "input must be a string.") ∧
    kwargsOp kw h (JsVal.num 42) = Except.error "input must be a string." ∧
    (∀ r : Nat, ∃ h' : JsHeap,
      kwargsOp kw h (JsVal.objRef r) = Except.ok (h', JsVal.objRef h.length) ∧
      fieldsGet (heapFields h' h.length) kw = some (JsVal.boolv true)) := by
  refine ⟨?_, ?_, ?_⟩
  · intro input hin
    simp [kwargsOp, hin]
  · simp [kwargsOp, jsTypeof]
  · intro r
    refine ⟨h ++ [setField (heapFields h r) kw (JsVal.boolv true)], ?_, ?_⟩
    · simp [kwargsOp, jsTypeof]
    · have hlen : heapFields
          (h ++ [setField (heapFields h r) kw (JsVal.boolv true)]) h.length =
          setField (heapFields h r) kw (JsVal.boolv true) := by
        unfold heapFields
        rw [List.getElem?_append_right (Nat.le_refl _)]
        simp
      rw [hlen]
      exact fieldsGet_setField _ kw _

/-- Witness for C9: on an empty heap, `kwargs(42)` throws the
type-error, and `kwargs` of an (empty) object returns a fresh tagged
object. -/
theorem kwargs_type_check_witness :
    jsTypeof (JsVal.str "x") ≠ "object" ∧
    kwargsOp "kwargs" [] (JsVal.str "x") =
      Except.error "input must be a string." ∧
    kwargsOp "kwargs" [] (JsVal.num 42) =
      Except.error "input must be a string." := by
  have h := kwargs_type_check "kwargs" []
  exact ⟨by decide, h.1 (JsVal.str "x") (by decide), h.2.1⟩

/-- C10: for an object input, `kwargs` returns a freshly created
object — a copy of the input's enumerable properties plus the tag —
and leaves the input object unmodified: every object already on the
heap keeps exactly its fields, so the tag is never added to the input
itself. -/
theorem kwargs_no_input_mutation (kw : String) (h : JsHeap) (r : Nat)
    (hr : r < h.length) :
    ∃ h' : JsHeap,
      kwargsOp kw h (JsVal.objRef r) = Except.ok (h', JsVal.objRef h.length) ∧
      h.length ≠ r ∧
      (∀ i, i < h.length → heapFields h' i = heapFields h i) ∧
      heapFields h' h.length = setField (heapFields h r) kw (JsVal.boolv true) := by
  refine ⟨h ++ [setField (heapFields h r) kw (JsVal.boolv true)],
    by simp [kwargsOp, jsTypeof], by omega, ?_, ?_⟩
  · intro i hi
    simp [heapFields, List.getElem?_append_left hi]
  · unfold heapFields
    rw [List.getElem?_append_right (Nat.le_refl _)]
    simp

/-- Witness for C10: a one-object heap whose object has a field
`"a"` — the result is a fresh second object carrying `"a"` and the
tag, while the input object keeps exactly its single field. -/
theorem kwargs_no_input_mutation_witness :
    (0 : Nat) < ([[("a", JsVal.num 1)]] : JsHeap).length ∧
    ∃ h' : JsHeap,
      kwargsOp "kwargs" [[("a", JsVal.num 1)]] (JsVal.objRef 0) =
        Except.ok (h', JsVal.objRef 1) ∧
      (1 : Nat) ≠ 0 ∧
      (∀ i, i < ([[("a", JsVal.num 1)]] : JsHeap).length →
        heapFields h' i = heapFields [[("a", JsVal.num 1)]] i) ∧
      heapFields h' 1 =
        setField (heapFields [[("a", JsVal.num 1)]] 0) "kwargs"
          (JsVal.boolv true) := by
  refine ⟨by decide, ?_⟩
  simpa using kwargs_no_input_mutation "kwargs" [[("a", JsVal.num 1)]] 0
    (by decide)

/-- The generated name for the idx-th interpolated value:
`boa_eval_var_${idx}`. -/
def genName (idx : Nat) : String :=
  "boa_eval_var_" ++ toString idx

/-- A Python namespace dict: string keys in insertion order.
`__setitem__` updates an existing key in place or appends a new one. -/
def nsSet {V : Type} : List (String × V) → String → V → List (String × V)
  | [], k, v => [(k, v)]
  | (k', v') :: rest, k, v =>
    if k' = k then (k, v) :: rest else (k', v') :: nsSet rest k v

/-- The `strs.reduce` of the multi-segment branch of `eval` (index.js
lines 473-486), carrying the accumulated source `acc`, the running
index `idx`, and the shadow namespace `env`: each segment is appended;
while `idx < params.length` the idx-th value is bound in `env` under
its generated name, the name is appended to the source, and the index
advances. -/
def evalReduceAux {V : Type} (params : List V) :
    List String → String → Nat → List (String × V) →
    String × List (String × V)
  | [], acc, _, env => (acc, env)
  | s :: rest, acc, idx, env =>
    match params[idx]? with
    | some v =>
      evalReduceAux params rest (acc ++ s ++ genName idx) (idx + 1)
        (nsSet env (genName idx) v)
    | none => evalReduceAux params rest (acc ++ s) idx env

/-- Claim-side reassembly: the source text with each interpolation
position (while indices remain below `plen`) replaced by its generated
name reference. -/
def interleaveFrom (plen : Nat) : List String → Nat → String
  | [], _ => ""
  | s :: rest, idx =>
    if idx < plen then s ++ (genName idx ++ interleaveFrom plen rest (idx + 1))
    else s ++ interleaveFrom plen rest idx

/-- Claim-side binding: each value of `vs` bound under its sequentially
indexed generated name, starting at index `i`. -/
def bindParamsFrom {V : Type} : List (String × V) → Nat → List V →
    List (String × V)
  | env, _, [] => env
  | env, i, v :: vs => bindParamsFrom (nsSet env (genName i) v) (i + 1) vs

/-- The reduce of `eval` produces exactly the claim-side reassembled
source and the claim-side sequential bindings (of the values reachable
before the segments run out). -/
theorem evalReduceAux_spec {V : Type} (params : List V) (strs : List String) :
    ∀ (acc : String) (idx : Nat) (env : List (String × V)),
    evalReduceAux params strs acc idx env =
      (acc ++ interleaveFrom params.length strs idx,
       bindParamsFrom env idx ((params.drop idx).take strs.length)) := by
  induction strs with
  | nil =>
    intro acc idx env
    simp [evalReduceAux, interleaveFrom, bindParamsFrom]
  | cons s rest ih =>
    intro acc idx env
    by_cases hidx : idx < params.length
    · have hget : params[idx]? = some (params.get ⟨idx, hidx⟩) :=
        List.getElem?_eq_getElem hidx
      have hdrop : params.drop idx = params.get ⟨idx, hidx⟩ ::
          params.drop (idx + 1) := List.drop_eq_getElem_cons hidx
      simp only [evalReduceAux, hget, ih, interleaveFrom, if_pos hidx, hdrop,
        List.take_succ_cons, bindParamsFrom]
      rw [Prod.mk.injEq]
      exact ⟨by rw [String.append_assoc, String.append_assoc], rfl⟩
    · have hget : params[idx]? = none :=
        List.getElem?_eq_none (Nat.le_of_not_lt hidx)
      have hdrop : params.drop idx = [] :=
        List.drop_eq_nil_of_le (Nat.le_of_not_lt hidx)
      simp only [evalReduceAux, hget, ih, interleaveFrom, if_neg hidx, hdrop,
        List.take_nil, bindParamsFrom]
      rw [String.append_assoc]

/-- The call `eval` assembles for the foreign runtime: the normalized
source text, the namespace dict passed as both `globals` and `locals`,
whether that dict is the shared process-wide globals dict, and the
host-level contents of the shared globals dict after setup. -/
structure EvalCall (V : Type) where
  src : String
  env : List (String × V)
  envIsShared : Bool
  globalsAfter : List (String × V)

/-- The argument of `eval`: a plain string or a tagged template
(`strs` segments with `params` interpolated values). -/
inductive EvalArg (V : Type) where
  | plainStr (s : String)
  | template (strs : List String) (params : List V)

/-- `eval(strs, ...params)` (index.js lines 465-495) up to the final
`pyInst.eval` call.  A plain string or a single-segment template runs
against the shared globals dict; a multi-segment template copies the
globals dict (`copy(globals)`, a fresh dict with the same entries),
binds each interpolated value in the copy while reassembling the
source, and runs against the copy.  `normalize` stands for the
blank-line / indentation cleanup done through `utils` (that module is
outside this repository's sources; the claim does not constrain it). -/
def evalModel {V : Type} (normalize : String → String)
    (g : List (String × V)) : EvalArg V → EvalCall V
  | EvalArg.plainStr s => ⟨normalize s, g, true, g⟩
  | EvalArg.template strs params =>
    if strs.length = 1 then ⟨normalize (strs.headD ""), g, true, g⟩
    else
      let p := evalReduceAux params strs "" 0 g
      ⟨normalize p.1, p.2, false, g⟩

/-- C6: a multi-segment `eval` creates a shadow copy of the global
namespace, binds each interpolated value in that copy under its
sequentially indexed generated name, reassembles the source with each
interpolation position replaced by its generated name, executes the
normalized source with globals and locals both bound to the copy (not
the shared dict), and leaves the shared global namespace without any
of the generated bindings. -/
theorem eval_shadow_namespace {V : Type} (normalize : String → String)
    (g : List (String × V)) (strs : List String) (params : List V)
    (hmulti : 2 ≤ strs.length)
    (hshape : strs.length = params.length + 1) :
    (evalModel normalize g (EvalArg.template strs params)).globalsAfter = g ∧
    (evalModel normalize g (EvalArg.template strs params)).envIsShared =
      false ∧
    (evalModel normalize g (EvalArg.template strs params)).env =
      bindParamsFrom g 0 params ∧
    (evalModel normalize g (EvalArg.template strs params)).src =
      normalize (interleaveFrom params.length strs 0) ∧
    (∀ i, g.lookup (genName i) = none →
      (evalModel normalize g
        (EvalArg.template strs params)).globalsAfter.lookup (genName i) =
        none) := by
  have hne : strs.length ≠ 1 := by omega
  have hred := evalReduceAux_spec params strs "" 0 g
  have htake : (params.drop 0).take strs.length = params := by
    rw [List.drop_zero]
    exact List.take_of_length_le (by omega)
  rw [htake] at hred
  refine ⟨?_, ?_, ?_, ?_, ?_⟩
  · simp [evalModel, hne]
  · simp [evalModel, hne]
  · simp [evalModel, hne, hred]
  · simp [evalModel, hne, hred, String.empty_append]
  · intro i hi
    simpa [evalModel, hne] using hi

/-- Witness for C6: a three-segment template with two interpolated
values — the shadow copy of a one-entry globals dict carries both
generated bindings, the source is reassembled around the generated
names, and the shared globals dict is untouched. -/
theorem eval_shadow_namespace_witness :
    (2 : Nat) ≤ (["a = ", " + ", "\n"] : List String).length ∧
    (["a = ", " + ", "\n"] : List String).length = [10, 20].length + 1 ∧
    (evalModel id [("x", 1)]
      (EvalArg.template ["a = ", " + ", "\n"] ([10, 20] : List Nat))).env =
      [("x", 1), ("boa_eval_var_0", 10), ("boa_eval_var_1", 20)] ∧
    (evalModel id [("x", 1)]
      (EvalArg.template ["a = ", " + ", "\n"] ([10, 20] : List Nat))).src =
      "a = boa_eval_var_0 + boa_eval_var_1\n" ∧
    (evalModel id [("x", 1)]
      (EvalArg.template ["a = ", " + ", "\n"]
        ([10, 20] : List Nat))).globalsAfter = [("x", 1)] := by
  have h := eval_shadow_namespace (V := Nat) id [("x", 1)]
    ["a = ", " + ", "\n"] [10, 20] (by decide) (by decide)
  refine ⟨by decide, by decide, ?_, ?_, h.1⟩
  · rw [h.2.2.1]
    rfl
  · rw [h.2.2.2.1]
    rfl

end Boa
